import Mathlib

/-!
Shallow embedding of `pas_zip.h` (single-header ZIP reader/writer).

Byte buffers are modelled as `List Nat`; each stored byte is reduced
modulo 256 where the C code reads it through a `uint8_t`.  Machine
integers are `Nat` with explicit `% 2^16` / `% 2^32` where the C code
casts.  The module-level statics (`pas_zip__handle`,
`pas_zip__current_file`, `pas_zip__name_buf`) are modelled by an
explicit state record threaded through the stateful entry points.
-/

namespace PasZip

/-- Status codes from `pas_zip.h`. -/
def PAS_ZIP_OK : Int := 0
def PAS_ZIP_E_INVALID : Int := -1
def PAS_ZIP_E_NOT_FOUND : Int := -2
def PAS_ZIP_E_COMPRESSED : Int := -3
def PAS_ZIP_E_NOSPACE : Int := -4

def PAS_ZIP_METHOD_STORE : Nat := 0
def PAS_ZIP_METHOD_DEFLATE : Nat := 8

def PAS_ZIP_EOCD_SIG : Nat := 0x06054b50
def PAS_ZIP_CDH_SIG : Nat := 0x02014b50
def PAS_ZIP_LFH_SIG : Nat := 0x04034b50

/-- Read one byte of the buffer through a `uint8_t` view. -/
def byteAt (d : List Nat) (i : Nat) : Nat := d.getD i 0 % 256

/-- `read_u16_le`: little-endian 16-bit read. -/
def read_u16_le (d : List Nat) (i : Nat) : Nat :=
  byteAt d i + byteAt d (i + 1) * 256

/-- `read_u32_le`: little-endian 32-bit read. -/
def read_u32_le (d : List Nat) (i : Nat) : Nat :=
  byteAt d i + byteAt d (i + 1) * 256 + byteAt d (i + 2) * 65536 +
    byteAt d (i + 3) * 16777216

/-- On a signature hit at position `i`, `find_eocd` reads `num_entries`
(at `i+8`) and `cd_offset` (at `i+16`) and fails the whole search when
`cd_offset ≥ size`. -/
def eocd_fields (d : List Nat) (size i : Nat) : Option (Nat × Nat) :=
  if read_u32_le d (i + 16) ≥ size then none
  else some (read_u32_le d (i + 16), read_u16_le d (i + 8))

/-- The backward-scan loop of `find_eocd`: test position `i` for the
signature, stepping down to `searchEnd`; the C loop also breaks at
`i == 0` after testing it. -/
def find_eocd_loop (d : List Nat) (size searchEnd : Nat) :
    Nat → Option (Nat × Nat)
  | 0 =>
    if read_u32_le d 0 = PAS_ZIP_EOCD_SIG then eocd_fields d size 0
    else none
  | Nat.succ j =>
    if read_u32_le d (j + 1) = PAS_ZIP_EOCD_SIG then eocd_fields d size (j + 1)
    else if j + 1 ≤ searchEnd then none
    else find_eocd_loop d size searchEnd j

/-- `find_eocd`: backward scan for the EOCD signature within the last
`65557` bytes; returns `(cd_offset, num_entries)` on success. -/
def find_eocd (d : List Nat) (size : Nat) : Option (Nat × Nat) :=
  if size < 22 then none
  else
    find_eocd_loop d size (if size > 65557 then size - 65557 else 0) (size - 22)

/-- `struct pas_zip_file`: the entry record filled by `parse_cd_entry`.
`name` holds the bytes copied into `pas_zip__name_buf` (truncated to 511
bytes when `fn_len ≥ 512`). -/
structure ZipFile where
  name : List Nat
  compressed_size : Nat
  uncompressed_size : Nat
  compression_method : Nat
  local_header_offset : Nat
  deriving DecidableEq, Repr

/-- The value of a NUL-terminated C string stored in a byte list: the
bytes before the first zero. -/
def cstr (bs : List Nat) : List Nat := bs.takeWhile (fun b => b ≠ 0)

/-- `parse_cd_entry` at absolute position `pos` with end bound
`d.length`: validates the signature, bounds-checks the whole record, and
fills a `ZipFile`, copying at most 511 name bytes. -/
def parse_cd_entry (d : List Nat) (pos : Nat) : Option ZipFile :=
  if pos + 46 > d.length then none
  else if read_u32_le d pos ≠ PAS_ZIP_CDH_SIG then none
  else if pos + 46 + read_u16_le d (pos + 28) + read_u16_le d (pos + 30) +
      read_u16_le d (pos + 32) > d.length then none
  else
    some
      { compression_method := read_u16_le d (pos + 10)
        compressed_size := read_u32_le d (pos + 20)
        uncompressed_size := read_u32_le d (pos + 24)
        local_header_offset := read_u32_le d (pos + 42)
        name :=
          (List.range
            (if read_u16_le d (pos + 28) ≥ 512 then 511
             else read_u16_le d (pos + 28))).map
            (fun k => byteAt d (pos + 46 + k)) }

/-- `cd_iterate` specialised to `pas_zip_find`: walk `n` central-directory
records from `pos`, returning the first whose stored (truncated,
NUL-terminated) name compares `strcmp`-equal to the query. -/
def cd_iterate_find (d : List Nat) (pos n : Nat) (q : List Nat) :
    Option ZipFile :=
  match n with
  | 0 => none
  | Nat.succ m =>
    if pos < d.length then
      match parse_cd_entry d pos with
      | none => none
      | some e =>
        if cstr e.name = cstr q then some e
        else
          cd_iterate_find d
            (pos + 46 + read_u16_le d (pos + 28) + read_u16_le d (pos + 30) +
              read_u16_le d (pos + 32)) m q
    else none

/-- `struct pas_zip`: the handle filled by `pas_zip_open`. -/
structure ZipHandle where
  data : List Nat
  cd_offset : Nat
  num_entries : Nat
  deriving DecidableEq, Repr

/-- `pas_zip_open` (pure core): locate the EOCD and build the handle. -/
def pas_zip_open (d : List Nat) : Option ZipHandle :=
  if d.length < 22 then none
  else
    match find_eocd d d.length with
    | none => none
    | some (cd, ne) => some ⟨d, cd, ne⟩

/-- `pas_zip_find` (pure core): linear central-directory scan. -/
def pas_zip_find (z : ZipHandle) (q : List Nat) : Option ZipFile :=
  cd_iterate_find z.data z.cd_offset z.num_entries q

/-- `skip_local_header`: validates the local-file-header signature at
`offset` and returns `30 + fn_len + extra_len` (the C code returns this
header length, not an absolute payload position), or `0` on failure. -/
def skip_local_header (d : List Nat) (offset : Nat) : Nat :=
  if offset + 30 > d.length then 0
  else if read_u32_le d offset ≠ PAS_ZIP_LFH_SIG then 0
  else 30 + read_u16_le d (offset + 26) + read_u16_le d (offset + 28)

/-- `pas_zip_extract` against archive bytes `d` (the current
`pas_zip__handle` contents): returns `(bytes_written, status, buffer')`.
The destination is a list whose length is the capacity `buffer_size`.
No deflate backend is compiled in, so method 8 fails with
`PAS_ZIP_E_COMPRESSED`. -/
def pas_zip_extract (d : List Nat) (f : ZipFile) (buf : List Nat) :
    Nat × Int × List Nat :=
  let payload_offset := skip_local_header d f.local_header_offset
  if payload_offset = 0 then (0, PAS_ZIP_E_INVALID, buf)
  else if payload_offset + f.compressed_size > d.length then
    (0, PAS_ZIP_E_INVALID, buf)
  else if buf.length < f.uncompressed_size then (0, PAS_ZIP_E_NOSPACE, buf)
  else if f.compression_method = PAS_ZIP_METHOD_STORE then
    (f.uncompressed_size, PAS_ZIP_OK,
      (List.range f.compressed_size).map (fun k => byteAt d (payload_offset + k)) ++
        buf.drop f.compressed_size)
  else if f.compression_method = PAS_ZIP_METHOD_DEFLATE then
    (0, PAS_ZIP_E_COMPRESSED, buf)
  else (0, PAS_ZIP_E_INVALID, buf)

/-! ### The writer, `pas_zip_create`

The destination buffer is modelled by its declared capacity plus an
explicit trace of every `out[written++] = v` store as an `(index, value)`
pair, so that stores the C code performs past the checked capacity stay
visible.  An input entry is a `(filename, payload)` pair of byte lists;
`strlen(filenames[i])` is the filename list's length (C strings carry no
interior NUL) and `sizes[i]` is the payload list's length. -/

/-- Little-endian bytes of a `uint16_t` store pair
`(uint8_t)x; (uint8_t)(x>>8)`. -/
def u16_bytes (x : Nat) : List Nat := [x % 256, x / 256 % 256]

/-- Little-endian bytes of a `uint32_t` store quadruple. -/
def u32_bytes (x : Nat) : List Nat :=
  [x % 256, x / 256 % 256, x / 65536 % 256, x / 16777216 % 256]

/-- The byte sequence the local-record loop of `pas_zip_create` emits for
one entry before the filename: signature, `20,0,0,0`, `0,0`, twelve zero
bytes, `sz` twice, `fn_len`, `0,0` — transcribed store by store. -/
def create_local_bytes (fn_len sz : Nat) : List Nat :=
  [0x50, 0x4b, 0x03, 0x04] ++ [20, 0, 0, 0] ++ [0, 0] ++
    List.replicate 12 0 ++ u32_bytes sz ++ u32_bytes sz ++ u16_bytes fn_len ++
    [0, 0]

/-- The byte sequence the central-directory loop emits for one entry
before the filename: signature, `20,0,20,0`, `0,0,0,0`, twelve zero
bytes, `fn_len`, ten zero bytes, `local_off` — store by store (a 40-byte
fixed record, `local_off` landing at record offset 36). -/
def create_cd_bytes (fn_len local_off : Nat) : List Nat :=
  [0x50, 0x4b, 0x01, 0x02] ++ [20, 0, 20, 0] ++ [0, 0, 0, 0] ++
    List.replicate 12 0 ++ u16_bytes fn_len ++
    ([0, 0, 0, 0] ++ [0, 0, 0, 0] ++ [0, 0]) ++ u32_bytes local_off

/-- The 22-byte trailer `pas_zip_create` emits. -/
def create_trailer_bytes (file_count cd_size cd_offset : Nat) : List Nat :=
  [0x50, 0x4b, 0x05, 0x06] ++ List.replicate 4 0 ++
    u16_bytes file_count ++ u16_bytes file_count ++ u32_bytes cd_size ++
    u32_bytes cd_offset ++ [0, 0]

/-- Turn a contiguous emission starting at `start` into its store trace. -/
def writeBytes (start : Nat) (bs : List Nat) : List (Nat × Nat) :=
  (List.range bs.length).map (fun k => (start + k, bs.getD k 0))

/-- The local-record loop of `pas_zip_create`.  Returns the updated
`written` count and the store trace, or the failure status with the trace
accumulated so far.  `fn_len != strlen` detects a `uint16_t` overflow;
`sz` is `(uint32_t)sizes[i]`. -/
def create_locals (es : List (List Nat × List Nat)) (buffer_size : Nat)
    (written : Nat) (tr : List (Nat × Nat)) :
    Except (Int × List (Nat × Nat)) (Nat × List (Nat × Nat)) :=
  match es with
  | [] => Except.ok (written, tr)
  | (name, data) :: rest =>
    if name.length % 65536 ≠ name.length then
      Except.error (PAS_ZIP_E_INVALID, tr)
    else
      let fn_len := name.length % 65536
      let sz := data.length % 4294967296
      let need := 30 + fn_len + sz
      if written + need > buffer_size then
        Except.error (PAS_ZIP_E_NOSPACE, tr)
      else
        let bs := create_local_bytes fn_len sz ++ name ++ data.take sz
        create_locals rest buffer_size (written + bs.length)
          (tr ++ writeBytes written bs)

/-- `local_off` as the central-directory loop recomputes it for entry
`i`: a `uint32_t` accumulation of `30 + strlen(filenames[j]) + sizes[j]`
over the entries before `i`. -/
def create_local_off (prev : List (List Nat × List Nat)) : Nat :=
  prev.foldl
    (fun a e => (a + 30 + e.1.length % 65536 + e.2.length % 4294967296) %
      4294967296) 0

/-- The central-directory loop of `pas_zip_create`.  `prev` holds the
entries already passed (for the `local_off` recomputation), `cd_size`
the `uint32_t` running total `46 + fn_len` per record. -/
def create_cds (prev rest : List (List Nat × List Nat)) (buffer_size : Nat)
    (written cd_size : Nat) (tr : List (Nat × Nat)) :
    Except (Int × List (Nat × Nat)) (Nat × Nat × List (Nat × Nat)) :=
  match rest with
  | [] => Except.ok (written, cd_size, tr)
  | (name, data) :: rest' =>
    let fn_len := name.length % 65536
    let local_off := create_local_off prev
    if written + 46 + fn_len > buffer_size then
      Except.error (PAS_ZIP_E_NOSPACE, tr)
    else
      let bs := create_cd_bytes fn_len local_off ++ name
      create_cds (prev ++ [(name, data)]) rest' buffer_size
        (written + bs.length) ((cd_size + 46 + fn_len) % 4294967296)
        (tr ++ writeBytes written bs)

/-- `pas_zip_create`: returns `(bytes_written, status, store trace)`.
Every failure path returns `0` bytes written, with whatever stores were
already performed recorded in the trace. -/
def pas_zip_create (es : List (List Nat × List Nat)) (buffer_size : Nat) :
    Nat × Int × List (Nat × Nat) :=
  if es.length = 0 then (0, PAS_ZIP_E_INVALID, [])
  else
    match create_locals es buffer_size 0 [] with
    | Except.error (st, tr) => (0, st, tr)
    | Except.ok (w1, tr1) =>
      let cd_offset := w1 % 4294967296
      match create_cds [] es buffer_size w1 0 tr1 with
      | Except.error (st, tr) => (0, st, tr)
      | Except.ok (w2, cd_size, tr2) =>
        if w2 + 22 > buffer_size then (0, PAS_ZIP_E_NOSPACE, tr2)
        else
          let bs := create_trailer_bytes (es.length % 65536) cd_size cd_offset
          (w2 + bs.length, PAS_ZIP_OK, tr2 ++ writeBytes w2 bs)

/-- Materialise a buffer of length `len` (initially zero) from a store
trace; stores at indices `≥ len` fall outside the buffer and are dropped
by `List.set`. -/
def applyWrites (len : Nat) (tr : List (Nat × Nat)) : List Nat :=
  tr.foldl (fun b iv => b.set iv.1 iv.2) (List.replicate len 0)

/-! ### Module-level state

`pas_zip.h` keeps three statics: `pas_zip__handle`,
`pas_zip__current_file` and `pas_zip__name_buf`.  The entry returned by
`pas_zip_find` is a pointer to `pas_zip__current_file` whose `name`
field points into `pas_zip__name_buf`; `observe` reads an entry through
that pointer in a given state. -/

structure ZipState where
  handle : ZipHandle
  current_file : ZipFile
  name_buf : List Nat
  deriving DecidableEq, Repr

/-- The zero-initialised statics at program start. -/
def initState : ZipState :=
  ⟨⟨[], 0, 0⟩, ⟨[], 0, 0, 0, 0⟩, []⟩

/-- `pas_zip_open` as a state transformer: on success the handle statics
are overwritten; on failure they are left untouched. -/
def pas_zip_open_st (d : List Nat) (s : ZipState) : Bool × ZipState :=
  match pas_zip_open d with
  | none => (false, s)
  | some z => (true, { s with handle := z })

/-- `cd_iterate` for `find`, additionally tracking the contents of
`pas_zip__name_buf`, which `parse_cd_entry` overwrites on every record it
successfully parses (match or not). -/
def cd_iterate_find_st (d : List Nat) (pos n : Nat) (q nb : List Nat) :
    Option ZipFile × List Nat :=
  match n with
  | 0 => (none, nb)
  | Nat.succ m =>
    if pos < d.length then
      match parse_cd_entry d pos with
      | none => (none, nb)
      | some e =>
        if cstr e.name = cstr q then (some e, cstr e.name)
        else
          cd_iterate_find_st d
            (pos + 46 + read_u16_le d (pos + 28) + read_u16_le d (pos + 30) +
              read_u16_le d (pos + 32)) m q (cstr e.name)
    else (none, nb)

/-- `pas_zip_find` as a state transformer: `pas_zip__current_file` is
overwritten only on a successful match, `pas_zip__name_buf` by every
record parsed along the way. -/
def pas_zip_find_st (q : List Nat) (s : ZipState) :
    Option ZipFile × ZipState :=
  match cd_iterate_find_st s.handle.data s.handle.cd_offset
      s.handle.num_entries q s.name_buf with
  | (none, nb) => (none, { s with name_buf := nb })
  | (some e, nb) => (some e, { s with current_file := e, name_buf := nb })

/-- Dereference the pointer `pas_zip_find` returns, in state `s`: the
fields of `pas_zip__current_file`, with the name read through its pointer
into `pas_zip__name_buf`. -/
def observe (s : ZipState) : ZipFile :=
  { s.current_file with name := s.name_buf }

/-- `pas_zip_extract` as the C code runs it: the archive bytes come from
the module-level `pas_zip__handle`, not from the entry's archive. -/
def pas_zip_extract_st (s : ZipState) (f : ZipFile) (buf : List Nat) :
    Nat × Int × List Nat :=
  pas_zip_extract s.handle.data f buf

/-! ### Concrete test inputs

Hand-built well-formed ZIP fragments used as inputs to the theorems
below.  These construct *data*, following the layout tables of the ZIP
format (local header 30 bytes, central record 46 bytes, trailer 22
bytes); they are not part of the embedded code. -/

/-- A well-formed 30-byte local file header followed by name and
payload; all fields other than signature and filename length zero. -/
def mk_lfh (name payload : List Nat) : List Nat :=
  [0x50, 0x4b, 0x03, 0x04] ++ List.replicate 22 0 ++
    u16_bytes name.length ++ [0, 0] ++ name ++ payload

/-- A well-formed 46-byte central-directory record followed by the name:
method at 10, compressed size at 20, uncompressed size at 24, filename
length at 28, local-header offset at 42. -/
def mk_cd (name : List Nat) (method comp uncomp local_off : Nat) :
    List Nat :=
  [0x50, 0x4b, 0x01, 0x02] ++ List.replicate 6 0 ++ u16_bytes method ++
    List.replicate 8 0 ++ u32_bytes comp ++ u32_bytes uncomp ++
    u16_bytes name.length ++ List.replicate 12 0 ++ u32_bytes local_off ++
    name

/-- A well-formed 22-byte end-of-central-directory record with entry
count at 8 and 10, central-directory offset at 16, empty comment. -/
def mk_eocd (num cd_off : Nat) : List Nat :=
  [0x50, 0x4b, 0x05, 0x06] ++ List.replicate 4 0 ++ u16_bytes num ++
    u16_bytes num ++ u32_bytes 0 ++ u32_bytes cd_off ++ [0, 0]

/-- A valid one-entry archive: file `"a"` with payload `[0xAA]`, local
header at offset 0, central directory at 32, trailer at 79. -/
def archA : List Nat :=
  mk_lfh [97] [0xAA] ++ mk_cd [97] 0 1 1 0 ++ mk_eocd 1 32

/-- The entry of `archA`'s single file, as `pas_zip_find` produces it. -/
def entryA : ZipFile := ⟨[97], 1, 1, 0, 0⟩

/-- Two valid local records — `"a"` with payload `[0xAA]` at offset 0 and
`"b"` with payload `[0xBB]` at offset 32 — under an empty trailer. -/
def archTwoLFH : List Nat :=
  mk_lfh [97] [0xAA] ++ mk_lfh [98] [0xBB] ++ mk_eocd 0 0

/-- The entry describing `archTwoLFH`'s file `"b"`: Store, one byte,
local header at offset 32 (payload therefore at `32 + 30 + 1 = 63`). -/
def entryB : ZipFile := ⟨[98], 1, 1, 0, 32⟩

/-- An archive whose single central record carries a 512-byte filename
(512 × `'a'`), Store, sizes 1/1. -/
def archLongName : List Nat :=
  mk_cd (List.replicate 512 97) 0 1 1 0 ++ mk_eocd 1 0

/-- An archive whose single central record declares method Store with
`compressed_size = 1` but `uncompressed_size = 2`. -/
def archBadSizes : List Nat :=
  mk_cd [97] 0 1 2 0 ++ mk_eocd 1 0

/-- A two-entry central directory: `"a"` with sizes 1/1 and `"b"` with
sizes 2/2. -/
def archTwo : List Nat :=
  mk_cd [97] 0 1 1 0 ++ mk_cd [98] 0 2 2 0 ++ mk_eocd 2 0

/-- The smallest valid archive: a bare 22-byte trailer with zero
entries. -/
def archEocdOnly : List Nat := mk_eocd 0 0

/-- A buffer carrying a decoy EOCD signature (with plausible-looking
fields) at offset 0, followed by the true 22-byte trailer at offset 8
and a 14-byte trailing comment. -/
def archDecoy : List Nat :=
  [0x50, 0x4b, 0x05, 0x06, 9, 0, 7, 0] ++
    ([0x50, 0x4b, 0x05, 0x06] ++ List.replicate 4 0 ++ u16_bytes 0 ++
      u16_bytes 0 ++ u32_bytes 0 ++ u32_bytes 0 ++ [14, 0]) ++
    List.replicate 14 0

/-- The `create` call of the round-trip scenario: one file `"a"` with
payload `[7]`, ample destination capacity. -/
def createExample : Nat × Int × List (Nat × Nat) :=
  pas_zip_create [([97], [7])] 200

/-- The destination buffer contents after `createExample`, over the
byte count the call reports. -/
def createExampleBuf : List Nat :=
  applyWrites createExample.1 createExample.2.2

/-- The states reached by opening `archTwo` and finding `"a"` then
`"b"`, exercising the shared statics. -/
def c9s0 : ZipState := (pas_zip_open_st archTwo initState).2

def c9r1 : Option ZipFile × ZipState := pas_zip_find_st [97] c9s0

def c9r2 : Option ZipFile × ZipState := pas_zip_find_st [98] c9r1.2

/-! ### Helper lemmas -/

theorem cstr_eq_self (l : List Nat) (h : ∀ b ∈ l, b ≠ 0) : cstr l = l := by
  induction l with
  | nil => rfl
  | cons a t ih =>
    have ha : a ≠ 0 := h a (by simp)
    have ht : cstr t = t := ih fun b hb => h b (by simp [hb])
    have hd : decide (a ≠ 0) = true := by simp [ha]
    simp only [cstr] at ht ⊢
    rw [List.takeWhile_cons, hd, if_pos rfl, ht]

theorem cd_iterate_find_cstr_eq (d q : List Nat) :
    ∀ n pos e, cd_iterate_find d pos n q = some e → cstr e.name = cstr q := by
  intro n
  induction n with
  | zero => intro pos e h; simp [cd_iterate_find] at h
  | succ m ih =>
    intro pos e h
    rw [cd_iterate_find] at h
    by_cases hlt : pos < d.length
    · rw [if_pos hlt] at h
      cases hp : parse_cd_entry d pos with
      | none => simp only [hp] at h; exact absurd h (by simp)
      | some e' =>
        simp only [hp] at h
        by_cases heq : cstr e'.name = cstr q
        · rw [if_pos heq] at h
          have he : e' = e := by injection h
          rw [← he]; exact heq
        · rw [if_neg heq] at h
          exact ih _ _ h
    · rw [if_neg hlt] at h
      exact absurd h (by simp)

theorem pas_zip_open_data (d : List Nat) (z : ZipHandle)
    (h : pas_zip_open d = some z) : z.data = d := by
  unfold pas_zip_open at h
  split at h
  · exact absurd h (by simp)
  · cases hf : find_eocd d d.length with
    | none => rw [hf] at h; exact absurd h (by simp)
    | some p =>
      rw [hf] at h
      cases p with
      | mk cd ne =>
        simp only [Option.some.injEq] at h
        rw [← h]

theorem find_eocd_loop_hit (d : List Nat) (size searchEnd t : Nat)
    (hsig : read_u32_le d t = PAS_ZIP_EOCD_SIG)
    (hcd : read_u32_le d (t + 16) < size) :
    find_eocd_loop d size searchEnd t =
      some (read_u32_le d (t + 16), read_u16_le d (t + 8)) := by
  have hf : eocd_fields d size t =
      some (read_u32_le d (t + 16), read_u16_le d (t + 8)) := by
    unfold eocd_fields
    rw [if_neg (by omega)]
  cases t with
  | zero => simp only [find_eocd_loop]; rw [if_pos hsig]; exact hf
  | succ j => simp only [find_eocd_loop]; rw [if_pos hsig]; exact hf

theorem find_eocd_loop_reaches (d : List Nat) (size searchEnd t : Nat)
    (hsig : read_u32_le d t = PAS_ZIP_EOCD_SIG)
    (hcd : read_u32_le d (t + 16) < size)
    (hse : searchEnd ≤ t) :
    ∀ k, (∀ j, t < j → j ≤ t + k → read_u32_le d j ≠ PAS_ZIP_EOCD_SIG) →
      find_eocd_loop d size searchEnd (t + k) =
        some (read_u32_le d (t + 16), read_u16_le d (t + 8)) := by
  intro k
  induction k with
  | zero =>
    intro _
    rw [Nat.add_zero]
    exact find_eocd_loop_hit d size searchEnd t hsig hcd
  | succ m ih =>
    intro hno
    show find_eocd_loop d size searchEnd ((t + m) + 1) = _
    simp only [find_eocd_loop]
    have hne : read_u32_le d ((t + m) + 1) ≠ PAS_ZIP_EOCD_SIG :=
      hno _ (by omega) (by omega)
    rw [if_neg hne, if_neg (by omega)]
    exact ih fun j h1 h2 => hno j h1 (by omega)

/-! ### Claim theorems -/

/-- Claim C1 (code bug): the round-trip fails.  Creating an archive from
the single pair `("a", [7])` with ample capacity succeeds and reports 99
bytes, yet opening the produced bytes and looking up `"a"` finds
nothing — the writer's record layout is not the one its own reader
parses, so `find` (and hence `extract`) cannot return the original
payload. -/
theorem c1_roundtrip_fails :
    createExample.1 = 99 ∧ createExample.2.1 = PAS_ZIP_OK ∧
      (pas_zip_open createExampleBuf).bind (fun z => pas_zip_find z [97]) =
        none := by
  decide

/-- Claim C2 (code bug): `pas_zip_extract` copies from absolute position
`30 + fn_len + extra_len` instead of
`local_header_offset + 30 + fn_len + extra_len`.  On `archTwoLFH`, whose
entry `"b"` has a valid local header at offset 32, the claimed payload
start `32 + 30 + 1 + 0 = 63` holds byte `0xBB`, but extraction returns
byte `0xAA` — the payload of the entry at offset 0. -/
theorem c2_extract_wrong_position :
    read_u32_le archTwoLFH 32 = PAS_ZIP_LFH_SIG ∧
      byteAt archTwoLFH (32 + 30 + read_u16_le archTwoLFH (32 + 26) +
        read_u16_le archTwoLFH (32 + 28)) = 0xBB ∧
      pas_zip_extract archTwoLFH entryB [0] = (1, PAS_ZIP_OK, [0xAA]) ∧
      (0xAA : Nat) ≠ 0xBB := by
  decide

/-- Claim C3 (code bug): the builder's records do not follow the
documented layout.  In the archive built from `("a", [7])`: the local
header holds `0` where the claim places `compressed_size` (offset 18)
and a size byte where the claim places the filename (offset 30), the
filename byte actually landing at offset 34 (a 34-byte header); the
central-directory record (at 36) is a 40-byte fixed record: it holds
`0` at the claimed `fn_len` offset 28 (the filename length lands at
record offset 24), and the local-header offset (0) lands at record
offset 36 while the claimed offset 42 reads past the record into
trailer bytes. -/
theorem c3_layout_divergence :
    read_u32_le createExampleBuf 18 = 0 ∧
      createExampleBuf.getD 30 0 = 1 ∧
      createExampleBuf.getD 34 0 = 97 ∧
      read_u16_le createExampleBuf (36 + 28) = 0 ∧
      read_u16_le createExampleBuf (36 + 24) = 1 ∧
      createExampleBuf.getD (36 + 40) 0 = 97 ∧
      read_u32_le createExampleBuf (36 + 36) = 0 ∧
      read_u32_le createExampleBuf (36 + 42) ≠ 0 := by
  decide

/-- Claim C4 (code bug): the local-record capacity check covers
`30 + fn_len + sz` bytes but the loop then stores `34 + fn_len + sz`
bytes.  For one file `"a"` with empty payload and capacity 31 the check
passes (`need = 31`), yet the call performs a store at index 34 — outside
the declared capacity — before failing with NoSpace and 0 bytes
written. -/
theorem c4_capacity_overrun :
    (pas_zip_create [([97], [])] 31).1 = 0 ∧
      (pas_zip_create [([97], [])] 31).2.1 = PAS_ZIP_E_NOSPACE ∧
      (34, 97) ∈ (pas_zip_create [([97], [])] 31).2.2 ∧ ¬ 34 < 31 := by
  decide

/-- Claim C5 (confirmed): when a structurally valid EOCD record sits at
position `t` (signature there, record inside the buffer, declared
directory offset in bounds, the trailing comment at most 65535 bytes)
and no later in-window position carries the signature, `pas_zip_open`
returns exactly the fields of that record — whatever bytes, including
decoy signatures, appear before `t`. -/
theorem c5_open_resolves_true_trailer (d : List Nat) (t : Nat)
    (hfit : t + 22 ≤ d.length)
    (hwin : d.length ≤ t + 65557)
    (hsig : read_u32_le d t = PAS_ZIP_EOCD_SIG)
    (hcd : read_u32_le d (t + 16) < d.length)
    (hafter : ∀ j, j ≤ d.length - 22 → t < j →
      read_u32_le d j ≠ PAS_ZIP_EOCD_SIG) :
    pas_zip_open d =
      some ⟨d, read_u32_le d (t + 16), read_u16_le d (t + 8)⟩ := by
  have h22 : ¬ d.length < 22 := by omega
  unfold pas_zip_open
  rw [if_neg h22]
  have hfind : find_eocd d d.length =
      some (read_u32_le d (t + 16), read_u16_le d (t + 8)) := by
    unfold find_eocd
    rw [if_neg h22]
    have hse : (if d.length > 65557 then d.length - 65557 else 0) ≤ t := by
      by_cases hc : d.length > 65557
      · rw [if_pos hc]; omega
      · rw [if_neg hc]; omega
    have hk : d.length - 22 = t + (d.length - 22 - t) := by omega
    rw [hk]
    exact find_eocd_loop_reaches d d.length _ t hsig hcd hse _
      fun j h1 h2 => hafter j (by omega) h1
  rw [hfind]

/-- Claim C5 witness: on `archDecoy` — a decoy EOCD signature at offset
0, the true trailer at offset 8 followed by a 14-byte comment — `open`
resolves the true trailer's fields (`cd_offset = 0`, zero entries), not
the decoy's. -/
theorem c5_open_resolves_true_trailer_witness :
    pas_zip_open archDecoy = some ⟨archDecoy, 0, 0⟩ ∧
      read_u32_le archDecoy 0 = PAS_ZIP_EOCD_SIG := by
  refine ⟨?_, by decide⟩
  have h := c5_open_resolves_true_trailer archDecoy 8 (by decide) (by decide)
    (by decide) (by decide) (by decide)
  rw [h]
  decide

set_option maxRecDepth 10000 in
/-- Claim C6 counterexample: `archLongName` stores a single entry whose
filename is 512 bytes long (`fn_len` field reads 512), yet `find` for
the 511-byte prefix of that name — a query unequal to the stored
name — succeeds: a false positive caused by name truncation. -/
theorem c6_truncation_false_positive :
    pas_zip_open archLongName = some ⟨archLongName, 0, 1⟩ ∧
      (pas_zip_find ⟨archLongName, 0, 1⟩ (List.replicate 511 97)).isSome =
        true ∧
      read_u16_le archLongName 28 = 512 ∧
      (List.replicate 511 97 : List Nat).length = 511 := by
  decide

/-- Claim C6 as amended (proved): `find` matches by comparing the copied
name — the stored filename truncated to at most 511 bytes, as a
NUL-terminated string — with the query; when neither the copied name nor
the query contains a NUL byte, a returned entry's copied name equals the
query byte-for-byte.  (Stored names of 512 bytes or more are truncated
before the comparison, so they can match a query equal to their 511-byte
prefix, as the counterexample shows.) -/
theorem c6_find_matches_copied_name_exactly (z : ZipHandle)
    (q : List Nat) (e : ZipFile)
    (hf : pas_zip_find z q = some e)
    (hq : ∀ b ∈ q, b ≠ 0) (hn : ∀ b ∈ e.name, b ≠ 0) :
    e.name = q := by
  have h := cd_iterate_find_cstr_eq z.data q z.num_entries z.cd_offset e hf
  rwa [cstr_eq_self e.name hn, cstr_eq_self q hq] at h

/-- Claim C6 amended witness: on `archA`, `find "a"` returns the entry
whose copied name is exactly `"a"`. -/
theorem c6_find_matches_copied_name_exactly_witness :
    pas_zip_find ⟨archA, 32, 1⟩ [97] = some entryA ∧ entryA.name = [97] :=
  ⟨by decide,
    c6_find_matches_copied_name_exactly ⟨archA, 32, 1⟩ [97] entryA
      (by decide) (by decide) (by decide)⟩

/-- Claim C7 counterexample: `archBadSizes` declares its single entry as
Store with `compressed_size = 1` and `uncompressed_size = 2`; `open`
accepts it and `find "a"` returns that entry unchanged — a Store entry
with unequal sizes, refuting the claimed invariant. -/
theorem c7_store_entry_unequal_sizes :
    pas_zip_open archBadSizes = some ⟨archBadSizes, 0, 1⟩ ∧
      pas_zip_find ⟨archBadSizes, 0, 1⟩ [97] = some ⟨[97], 1, 2, 0, 0⟩ ∧
      (⟨[97], 1, 2, 0, 0⟩ : ZipFile).compression_method =
        PAS_ZIP_METHOD_STORE ∧
      (⟨[97], 1, 2, 0, 0⟩ : ZipFile).compressed_size ≠
        (⟨[97], 1, 2, 0, 0⟩ : ZipFile).uncompressed_size := by
  decide

/-- Claim C7 as amended (proved): the parser reads `compressed_size` and
`uncompressed_size` independently from record offsets 20 and 24 and
imposes no relation between them — for Store entries or any other
method, whatever the record declares is what the entry carries. -/
theorem c7_parse_sizes_read_independently (d : List Nat) (pos : Nat)
    (e : ZipFile) (h : parse_cd_entry d pos = some e) :
    e.compressed_size = read_u32_le d (pos + 20) ∧
      e.uncompressed_size = read_u32_le d (pos + 24) := by
  unfold parse_cd_entry at h
  split at h
  · exact absurd h (by simp)
  · split at h
    · exact absurd h (by simp)
    · split at h
      · exact absurd h (by simp)
      · cases h
        exact ⟨rfl, rfl⟩

/-- Claim C7 amended witness: on `archBadSizes` the parsed entry's sizes
are exactly the record's declared (unequal) size fields. -/
theorem c7_parse_sizes_read_independently_witness :
    (⟨[97], 1, 2, 0, 0⟩ : ZipFile).compressed_size =
        read_u32_le archBadSizes 20 ∧
      (⟨[97], 1, 2, 0, 0⟩ : ZipFile).uncompressed_size =
        read_u32_le archBadSizes 24 :=
  c7_parse_sizes_read_independently archBadSizes 0 ⟨[97], 1, 2, 0, 0⟩
    (by decide)

/-- Claim C8 (confirmed): for a structurally valid Store entry (valid
local header, payload in bounds), extraction into a destination of
capacity exactly `uncompressed_size` succeeds with status OK and reports
`uncompressed_size` bytes, while a destination one byte smaller fails
with NoSpace, zero bytes written, and the destination untouched. -/
theorem c8_nospace_boundary (d : List Nat) (f : ZipFile)
    (buf1 buf2 : List Nat)
    (hm : f.compression_method = PAS_ZIP_METHOD_STORE)
    (hskip : skip_local_header d f.local_header_offset ≠ 0)
    (hbound : skip_local_header d f.local_header_offset +
      f.compressed_size ≤ d.length)
    (h1 : buf1.length = f.uncompressed_size)
    (h2 : buf2.length + 1 = f.uncompressed_size) :
    (pas_zip_extract d f buf1).1 = f.uncompressed_size ∧
      (pas_zip_extract d f buf1).2.1 = PAS_ZIP_OK ∧
      pas_zip_extract d f buf2 = (0, PAS_ZIP_E_NOSPACE, buf2) := by
  have hb' : ¬ skip_local_header d f.local_header_offset +
      f.compressed_size > d.length := by omega
  have h1' : ¬ buf1.length < f.uncompressed_size := by omega
  have h2' : buf2.length < f.uncompressed_size := by omega
  refine ⟨?_, ?_, ?_⟩ <;>
    simp [pas_zip_extract, hskip, hb', h1', h2', hm, PAS_ZIP_METHOD_STORE]

/-- Claim C8 witness: on `archA`'s entry (Store, one byte), a one-byte
destination succeeds and an empty destination returns NoSpace
unchanged. -/
theorem c8_nospace_boundary_witness :
    (pas_zip_extract archA entryA [0]).1 = entryA.uncompressed_size ∧
      (pas_zip_extract archA entryA [0]).2.1 = PAS_ZIP_OK ∧
      pas_zip_extract archA entryA [] = (0, PAS_ZIP_E_NOSPACE, []) :=
  c8_nospace_boundary archA entryA [0] [] (by decide) (by decide)
    (by decide) (by decide) (by decide)

/-- Claim C9 (code bug): the entry `pas_zip_find` returns is a pointer
into module statics.  On `archTwo`, after `find "a"` the pointer reads
as the `"a"` entry (sizes 1), but after a subsequent `find "b"` the same
pointer reads as the `"b"` entry (sizes 2, name `"b"`): the previously
returned entry's fields and name bytes have been overwritten. -/
theorem c9_returned_entry_overwritten :
    (pas_zip_open_st archTwo initState).1 = true ∧
      c9r1.1 = some ⟨[97], 1, 1, 0, 0⟩ ∧
      observe c9r1.2 = ⟨[97], 1, 1, 0, 0⟩ ∧
      c9r2.1 = some ⟨[98], 2, 2, 0, 0⟩ ∧
      observe c9r2.2 = ⟨[98], 2, 2, 0, 0⟩ ∧
      observe c9r2.2 ≠ observe c9r1.2 := by
  decide

/-- Claim C10 (confirmed): `pas_zip_extract` resolves bytes through the
module-level handle.  If an entry was obtained by `find` after opening
archive `A`, and a later `pas_zip_open` of a buffer `B` succeeds, then
extracting that entry behaves exactly as the pure extraction function
applied to `B`'s bytes — locations and bounds checks all refer to `B`,
not to the archive the entry came from. -/
theorem c10_extract_uses_latest_open (s0 : ZipState) (A B q : List Nat)
    (e : ZipFile) (buf : List Nat)
    (hA : (pas_zip_open_st A s0).1 = true)
    (he : (pas_zip_find_st q (pas_zip_open_st A s0).2).1 = some e)
    (hB : (pas_zip_open_st B
      (pas_zip_find_st q (pas_zip_open_st A s0).2).2).1 = true) :
    pas_zip_extract_st
        (pas_zip_open_st B
          (pas_zip_find_st q (pas_zip_open_st A s0).2).2).2 e buf =
      pas_zip_extract B e buf := by
  unfold pas_zip_open_st at hB ⊢
  cases hz : pas_zip_open B with
  | none => rw [hz] at hB; exact absurd hB (by simp)
  | some z =>
    have hd : z.data = B := pas_zip_open_data B z hz
    simp [pas_zip_extract_st, hd]

/-- Claim C10 witness: find `"a"` in `archA`, then open the bare-trailer
archive `archEocdOnly`; extracting the old entry behaves as pure
extraction from `archEocdOnly` (whose 22-byte buffer cannot even hold
the local header, so it fails FormatInvalid against the new bounds). -/
theorem c10_extract_uses_latest_open_witness :
    pas_zip_extract_st
        (pas_zip_open_st archEocdOnly
          (pas_zip_find_st [97] (pas_zip_open_st archA initState).2).2).2
        entryA [0] =
      pas_zip_extract archEocdOnly entryA [0] :=
  c10_extract_uses_latest_open initState archA archEocdOnly [97] entryA [0]
    (by decide) (by decide) (by decide)

end PasZip
